import Mathlib

/-!
Shallow embedding of the dogbook mutation pipeline: token-based admission
(backend/auth.ts), change detection and audit logging (backend/notifications.ts),
entity hooks (backend/hooks.ts), and push-notification fan-out with
dead-subscription pruning (the notifications module with admin-only
subscription filtering).

Conventions of the embedding:
- JavaScript timestamps are `Nat` milliseconds.
- Database rows are Lean structures; result sets are `List`s in query order.
- `context.query.*` reads are passed in explicitly as values (the DB state at
  the moment of the read); fire-and-forget writes that do not affect the
  modelled claims (EditToken usage counter) are noted in comments.
- JS `undefined` is `Option.none`; an explicit JSON `null` is `JsonVal.jnull`.
-/

namespace Dogbook

/-- Moderation mode of the global `Settings` singleton
(`a_posteriori` = publish immediately, `a_priori` = require review). -/
inductive ModerationMode
  | aPosteriori
  | aPriori
deriving DecidableEq

/-- Visibility status of a Dog or Media record (`Dog.status` never takes
`rejected`; the enum is shared for simplicity). -/
inductive RecordStatus
  | pending
  | approved
  | rejected
deriving DecidableEq

/-- Status of a ChangeLog entry as written by `logChange`
(the schema also has `reverted`, set only by later admin action). -/
inductive ChangeStatus
  | pending
  | accepted
deriving DecidableEq

/-- The three entity kinds tracked by the change-logging pipeline. -/
inductive EntityType
  | Dog
  | Owner
  | Media
deriving DecidableEq

/-- CRUD operation kinds seen by the Keystone hooks. -/
inductive Operation
  | create
  | update
  | delete
deriving DecidableEq

/-- The string value of the `entityType` discriminator as it appears in the
TypeScript union type (used in template literals). -/
def entityTypeStr : EntityType → String
  | .Dog => "Dog"
  | .Owner => "Owner"
  | .Media => "Media"

/-- Field values as they occur in entity snapshots and update payloads:
JSON null, strings, booleans, and to-one relationship objects (an object
carrying `id` and possibly `name`, as returned by queries such as
`dog \x7b id name \x7d`). Arrays never occur for tracked fields, so the
array branch of `formatValue` is dead code and is not modelled. -/
inductive JsonVal
  | jnull
  | jstr (s : String)
  | jbool (b : Bool)
  | jrel (id : String) (name : Option String)
deriving DecidableEq

/-- A value appearing in GraphQL update input data: either a plain value or a
relationship mutation (`\x7b connect: \x7b id \x7d \x7d` carries `some id`,
`\x7b disconnect: true \x7d` carries `none`). -/
inductive InputVal
  | plain (v : JsonVal)
  | connectOp (target : Option String)
deriving DecidableEq

/-- JavaScript `String(value)` coercion for the value shapes we model. -/
def jsCoerce : JsonVal → String
  | .jnull => "null"
  | .jstr s => s
  | .jbool b => if b then "true" else "false"
  | .jrel _ _ => "[object Object]"

/-- FIELD_LABELS lookup with the source fallback
`FIELD_LABELS[entityType]?.[field] || field`. -/
def fieldLabelFor (t : EntityType) (field : String) : String :=
  match t, field with
  | .Dog, "name" => "Nom"
  | .Dog, "sex" => "Sexe"
  | .Dog, "birthday" => "Anniversaire"
  | .Dog, "breed" => "Race"
  | .Dog, "coat" => "Robe"
  | .Dog, "owner" => "Humain"
  | .Owner, "name" => "Nom"
  | .Owner, "email" => "Email"
  | .Owner, "phone" => "Téléphone"
  | .Media, "name" => "Nom"
  | .Media, "type" => "Type"
  | .Media, "status" => "Statut"
  | .Media, "isFeatured" => "Photo principale"
  | .Media, "dog" => "Chien"
  | _, f => f

/-- TRACKED_FIELDS from the change-logging module. -/
def trackedFields : EntityType → List String
  | .Dog => ["name", "sex", "birthday", "breed", "coat", "owner"]
  | .Owner => ["name", "email", "phone"]
  | .Media => ["status", "isFeatured", "dog"]

/-- `formatDate`: renders a calendar-day string `YYYY-MM-DD` as `DD/MM/YYYY`.
The source goes through `new Date(...)` and local-time accessors; calendar-day
strings round-trip as modelled here. Invalid dates and timezone edge cases are
not modelled (no tracked claim involves them). -/
def formatDate (dateString : String) : String :=
  match dateString.splitOn "-" with
  | [y, m, d] => d ++ "/" ++ m ++ "/" ++ y
  | _ => dateString

/-- The `statusMap[value] || value` lookup inside `formatValue`. -/
def statusLabelFr (s : String) : String :=
  if s = "pending" then "En attente"
  else if s = "approved" then "Approuvée"
  else if s = "rejected" then "Rejetée"
  else s

/-- Display for a relationship object: `value.name || value.id`
(JS truthiness: an empty-string name falls back to the id). -/
def relDisplay (id : String) (name : Option String) : String :=
  match name with
  | some n => if n = "" then id else n
  | none => id

/-- `formatValue(field, value)` from the change-logging module, following the
source branch order: null/undefined, relationship object, `sex`, `status`,
boolean, `birthday`, then `String(value)`. -/
def formatValue (field : String) (value : Option JsonVal) : String :=
  match value with
  | none => "(vide)"
  | some .jnull => "(vide)"
  | some (.jrel id name) => relDisplay id name
  | some v =>
    if field = "sex" then
      if v = .jstr "male" then "Mâle"
      else if v = .jstr "female" then "Femelle"
      else jsCoerce v
    else if field = "status" then
      match v with
      | .jstr s => statusLabelFr s
      | w => jsCoerce w
    else
      match v with
      | .jbool b => if b then "Oui" else "Non"
      | .jstr s => if field = "birthday" ∧ s ≠ "" then formatDate s else s
      | w => jsCoerce w

/-- `JSON.stringify` on the value shapes we model (string escaping of embedded
quotes is not modelled; the relationship key order follows the query shape). -/
def jsonStringify : JsonVal → String
  | .jnull => "null"
  | .jstr s => "\"" ++ s ++ "\""
  | .jbool b => if b then "true" else "false"
  | .jrel id name =>
    match name with
    | some n => "\x7b\"id\":\"" ++ id ++ "\",\"name\":\"" ++ n ++ "\"\x7d"
    | none => "\x7b\"id\":\"" ++ id ++ "\"\x7d"

/-- A structured change record (`FieldChange` in the source). -/
structure FieldChange where
  field : String
  fieldLabel : String
  oldValue : Option JsonVal
  newValue : Option JsonVal
  displayOld : String
  displayNew : String
deriving DecidableEq

/-- The body of the `detectChanges` per-field loop: returns the change record
pushed for `field`, or `none` when the iteration `continue`s without one. -/
def detectChangesField (entityType : EntityType) (oldItem : List (String × JsonVal))
    (newData : List (String × InputVal)) (field : String) : Option FieldChange :=
  match newData.lookup field with
  | none => none
  | some nv =>
    let oldValue : Option JsonVal := oldItem.lookup field
    if nv = .plain .jnull ∧ oldValue ≠ some .jnull then
      some { field := field, fieldLabel := fieldLabelFor entityType field,
             oldValue := oldValue, newValue := some .jnull,
             displayOld := formatValue field oldValue, displayNew := "(supprimé)" }
    else
      match nv with
      | .connectOp target =>
        let connectId : Option String := target
        let oldId : Option String :=
          match oldValue with
          | some (.jrel i _) => some i
          | _ => none
        if connectId ≠ oldId then
          some { field := field, fieldLabel := fieldLabelFor entityType field,
                 oldValue := oldValue,
                 newValue := target.map (fun i => .jrel i none),
                 displayOld := formatValue field oldValue,
                 displayNew := formatValue field (target.map (fun i => .jrel i none)) }
        else none
      | .plain v =>
        if oldValue.map jsonStringify ≠ some (jsonStringify v) then
          some { field := field, fieldLabel := fieldLabelFor entityType field,
                 oldValue := oldValue, newValue := some v,
                 displayOld := formatValue field oldValue,
                 displayNew := formatValue field (some v) }
        else none

/-- `detectChanges(entityType, oldItem, newData)`: one pass over the tracked
fields, collecting the change records in order. -/
def detectChanges (entityType : EntityType) (oldItem : List (String × JsonVal))
    (newData : List (String × InputVal)) : List FieldChange :=
  (trackedFields entityType).filterMap (detectChangesField entityType oldItem newData)

/-- One `"label: old → new"` fragment of a summary. -/
def changeFragment (c : FieldChange) : String :=
  c.fieldLabel ++ ": " ++ c.displayOld ++ " → " ++ c.displayNew

/-- `createChangesSummary(entityType, entityName, changes)`. -/
def createChangesSummary (entityType : EntityType) (entityName : String)
    (changes : List FieldChange) : String :=
  if changes.isEmpty then entityTypeStr entityType ++ ": " ++ entityName
  else entityName ++ ": " ++ String.intercalate ", " (changes.map changeFragment)

/-- Title and body of a push message (`createNotificationMessage` result). -/
structure NotifMessage where
  title : String
  body : String
deriving DecidableEq

/-- Icon per entity kind (`icons[entityType] || '📝'` never falls back since
the union is exhaustive). -/
def entityIcon : EntityType → String
  | .Dog => "🐕"
  | .Owner => "👤"
  | .Media => "📸"

/-- The French type label used in notification titles. -/
def entityTypeLabelFr : EntityType → String
  | .Dog => "Chien"
  | .Owner => "Humain"
  | .Media => "Média"

/-- `createNotificationMessage(entityType, entityName, operation, changes)`. -/
def createNotificationMessage (entityType : EntityType) (entityName : String)
    (operation : Operation) (changes : List FieldChange) : NotifMessage :=
  let icon := entityIcon entityType
  match operation with
  | .create =>
    { title := icon ++ " Nouveau " ++ (entityTypeLabelFr entityType).toLower,
      body := "\"" ++ entityName ++ "\" a été créé" }
  | .delete =>
    { title := icon ++ " " ++ entityTypeLabelFr entityType ++ " supprimé",
      body := "\"" ++ entityName ++ "\" a été supprimé" }
  | .update =>
    if changes.isEmpty then
      { title := icon ++ " " ++ entityName, body := "Modifié" }
    else
      { title := icon ++ " " ++ entityName ++ " modifié",
        body := String.intercalate ", " (changes.map changeFragment) }

/-- Fallback branch of `getEntityName` for Media:
`item.name || 'Photo sans nom'`. -/
def fallbackMediaName (item : List (String × JsonVal)) : String :=
  match item.lookup "name" with
  | some (.jstr s) => if s = "" then "Photo sans nom" else s
  | _ => "Photo sans nom"

/-- `getEntityName(entityType, item)`; for Media prefers the owning dog's
name (`item.dog?.name`, truthy), otherwise `item.name || fallback`. -/
def getEntityName (entityType : EntityType) (item : List (String × JsonVal)) : String :=
  if entityType = .Media then
    match item.lookup "dog" with
    | some (.jrel _ (some n)) => if n = "" then fallbackMediaName item else "Photo de " ++ n
    | _ => fallbackMediaName item
  else
    match item.lookup "name" with
    | some (.jstr s) => if s = "" then "Sans nom" else s
    | _ => "Sans nom"

/-- The base URLs read from the environment
(`process.env.BACKEND_URL || 'http://localhost:3000'` and
`process.env.FRONTEND_URL || 'http://localhost:8080'`). -/
structure UrlEnv where
  backendBaseUrl : String
  frontendBaseUrl : String
deriving DecidableEq

/-- The defaulted environment used when neither variable is set. -/
def defaultUrlEnv : UrlEnv :=
  { backendBaseUrl := "http://localhost:3000", frontendBaseUrl := "http://localhost:8080" }

/-- Result of `generateEntityUrls`. -/
structure EntityUrls where
  frontendUrl : String
  backendUrl : String
deriving DecidableEq

/-- `generateEntityUrls(entityType, entityId, dogId?)`: deterministic public
and admin cross-links; Media links to the owning dog's public page when the
dog id is known, else the frontend link stays empty. -/
def generateEntityUrls (env : UrlEnv) (entityType : EntityType) (entityId : String)
    (dogId : Option String) : EntityUrls :=
  match entityType with
  | .Dog =>
    { frontendUrl := env.frontendBaseUrl ++ "/chiens/" ++ entityId ++ "/",
      backendUrl := env.backendBaseUrl ++ "/dogs/" ++ entityId }
  | .Owner =>
    { frontendUrl := env.frontendBaseUrl ++ "/humains/" ++ entityId ++ "/",
      backendUrl := env.backendBaseUrl ++ "/owners/" ++ entityId }
  | .Media =>
    { frontendUrl :=
        match dogId with
        | some d => env.frontendBaseUrl ++ "/chiens/" ++ d ++ "/"
        | none => "",
      backendUrl := env.backendBaseUrl ++ "/media/" ++ entityId }

/-- `getChangeStatus(context)`: `settings?.moderationMode === 'a_posteriori'`
auto-accepts audit entries, anything else (including a missing Settings row)
defaults to `pending`. The catch branch (DB read failure → accepted) is not
modelled. -/
def getChangeStatus (settings : Option ModerationMode) : ChangeStatus :=
  match settings with
  | some .aPosteriori => .accepted
  | _ => .pending

/-- Keystone session data as configured in keystone.ts
(`sessionData: 'name email'`); there is no `isAdmin` field. -/
structure SessionData where
  name : String
  email : String
deriving DecidableEq

/-- The token info stored on the request context by `hasValidEditToken`
(`context.magicToken = \x7b id, label \x7d`). -/
structure TokenInfo where
  id : String
  label : String
deriving DecidableEq

/-- The per-request context as seen by the change-logging layer after
admission: an admin session and/or validated magic-token info. -/
structure Ctx where
  session : Option SessionData
  magicToken : Option TokenInfo
deriving DecidableEq

/-- `getChangedBySource(context)`. -/
def getChangedBySource (ctx : Ctx) : String :=
  if ctx.session.isSome then "admin"
  else if ctx.magicToken.isSome then "magic"
  else "public"

/-- `getChangedByLabel(context)`. -/
def getChangedByLabel (ctx : Ctx) : Option String :=
  match ctx.session with
  | some s => some s.name
  | none => ctx.magicToken.map TokenInfo.label

/-- JS truthiness of an optional string (`undefined` and `""` are falsy). -/
def strTruthy : Option String → Bool
  | some s => s ≠ ""
  | none => false

/-- The data argument of `logChange` (its optional `status` is never passed
by the hooks but kept for fidelity to the signature). -/
structure ChangeLogData where
  entityType : EntityType
  entityId : String
  entityName : String
  operation : Operation
  changes : List FieldChange
  changesSummary : String
  status : Option ChangeStatus
  dogId : Option String
deriving DecidableEq

/-- A row of the ChangeLog list as created by `logChange`. -/
structure ChangeLogEntry where
  entityType : EntityType
  entityId : String
  entityName : String
  operation : Operation
  changes : List FieldChange
  changesSummary : String
  changedBy : String
  changedByLabel : Option String
  status : ChangeStatus
  frontendUrl : String
  backendUrl : String
deriving DecidableEq

/-- `logChange(context, data)`: computes status, cross-links and attribution,
prefixes the summary with `[label] ` for truthy-labelled magic-token actors,
and returns the row handed to `ChangeLog.createOne` (whose failure is caught
and logged in the source; the success path is modelled). -/
def logChange (env : UrlEnv) (settings : Option ModerationMode) (ctx : Ctx)
    (data : ChangeLogData) : ChangeLogEntry :=
  let status := data.status.getD (getChangeStatus settings)
  let urls := generateEntityUrls env data.entityType data.entityId data.dogId
  let changedBy := getChangedBySource ctx
  let changedByLabel := getChangedByLabel ctx
  let changesSummary :=
    if changedBy = "magic" ∧ strTruthy changedByLabel then
      "[" ++ changedByLabel.getD "" ++ "] " ++ data.changesSummary
    else data.changesSummary
  { entityType := data.entityType, entityId := data.entityId,
    entityName := data.entityName, operation := data.operation,
    changes := data.changes, changesSummary := changesSummary,
    changedBy := changedBy, changedByLabel := changedByLabel,
    status := status, frontendUrl := urls.frontendUrl, backendUrl := urls.backendUrl }

/-- An EditToken row (shape per the add_magic_links migration and the
`query: 'id label isActive expiresAt usageCount'` read in auth.ts). -/
structure EditToken where
  id : String
  label : String
  token : String
  isActive : Bool
  expiresAt : Option Nat
  usageCount : Nat
deriving DecidableEq

/-- The request-side inputs consulted by `hasValidEditToken`: the presence of
an admin session and the `magicToken` cookie value. -/
structure AuthRequestCtx where
  session : Option SessionData
  cookieToken : Option String
deriving DecidableEq

/-- `hasValidEditToken` from backend/auth.ts, as a function of the current
time and the EditToken table. The fire-and-forget usage-counter update and
the `context.magicToken` side effect do not influence the admission result
and are not part of this value. -/
def hasValidEditToken (now : Nat) (tokens : List EditToken) (ctx : AuthRequestCtx) : Bool :=
  if ctx.session.isSome then true
  else
    match ctx.cookieToken with
    | none => false
    | some t =>
      if t = "" then false
      else
        match tokens.find? (fun e => e.token == t) with
        | none => false
        | some editToken =>
          if !editToken.isActive then false
          else
            match editToken.expiresAt with
            | some expires => !(expires < now)
            | none => true

/-- Transcription of claim C1's admission condition, in the spec's words: a
record with that exact token string exists, `active` is true, and the expiry
is unset or strictly in the future. Kept separate from the source-derived
`hasValidEditToken` so the two can be compared. -/
def claimAdmitsFutureOnly (now : Nat) (tokens : List EditToken) (t : String) : Bool :=
  tokens.any fun e =>
    e.token == t && e.isActive &&
      (match e.expiresAt with
       | none => true
       | some x => now < x)

/-- A PushSubscription row (endpoint, opaque keys blob, admin-notify flag). -/
structure PushSub where
  id : Nat
  endpoint : String
  keys : String
  receivesAdminNotifications : Bool
deriving DecidableEq

/-- Outcome of one `webpush.sendNotification` call: success, or a rejection
carrying `error.statusCode`. -/
inductive PushResult
  | ok
  | err (statusCode : Nat)
deriving DecidableEq

/-- Whether a delivery outcome is the permanently-gone status the pruning
branch tests for (`error.statusCode === 410`). -/
def isGone : PushResult → Bool
  | .ok => false
  | .err code => code == 410

/-- The payload handed to `webpush.sendNotification` (the `data` deep-link is
kept as its `url` member; the remaining `data` ids do not affect any claim). -/
structure PushPayload where
  title : String
  body : String
  icon : String
  badge : String
  url : String
deriving DecidableEq

/-- One attempted delivery: the subscription written to, the payload, and the
endpoint's response. -/
structure DeliveryAttempt where
  sub : PushSub
  payload : PushPayload
  result : PushResult
deriving DecidableEq

/-- The per-subscription catch handler of
`sendPushNotificationToSubscriptions`: a 410 failure deletes that one
subscription (by id) from the PushSubscription table, any other outcome
leaves the table as is. -/
def pruneStep (outcome : PushSub → PushResult) (db : List PushSub) (sub : PushSub) :
    List PushSub :=
  if isGone (outcome sub) then db.filter (fun s => s.id != sub.id) else db

/-- `sendPushNotificationToSubscriptions(context, subscriptions, payload)`:
every subscription in the fan-out is attempted (each task has its own catch,
so one failure never stops the others), and the table is pruned of the
subscriptions whose delivery reported 410. The concurrent `Promise.all` is
modelled as a fold, which is order-independent because deletions are keyed
by id. -/
def sendPushNotificationToSubscriptions (outcome : PushSub → PushResult)
    (db : List PushSub) (subs : List PushSub) (payload : PushPayload) :
    List DeliveryAttempt × List PushSub :=
  (subs.map (fun s => { sub := s, payload := payload, result := outcome s }),
   subs.foldl (pruneStep outcome) db)

/-- The change data handed to `sendChangeNotification` by the hooks. -/
structure ChangeNotificationData where
  entityType : EntityType
  entityName : String
  operation : Operation
  changes : List FieldChange
deriving DecidableEq

/-- `sendChangeNotification(context, changeData)`: early-returns for any
admin session, selects only subscriptions flagged
`receivesAdminNotifications`, no-ops when none exist, then fans out the
formatted change message. -/
def sendChangeNotification (outcome : PushSub → PushResult) (ctx : Ctx)
    (db : List PushSub) (changeData : ChangeNotificationData) :
    List DeliveryAttempt × List PushSub :=
  if ctx.session.isSome then ([], db)
  else
    let adminSubscriptions := db.filter (fun s => s.receivesAdminNotifications)
    if adminSubscriptions.isEmpty then ([], db)
    else
      let msg := createNotificationMessage changeData.entityType changeData.entityName
        changeData.operation changeData.changes
      sendPushNotificationToSubscriptions outcome db adminSubscriptions
        { title := msg.title, body := msg.body, icon := "/images/hello-big-dog.png",
          badge := "/images/hello-dog.png", url := "/change-log" }

/-- `sendUploadNotification(item, context)`: fired on every Media create.
It has no actor guard — it fans out to admin-flagged subscriptions whether or
not the creator holds an admin session. `dogName` is the owning dog's name as
re-queried from `item.dogId` (`dog?.name || 'un chien'`). -/
def sendUploadNotification (outcome : PushSub → PushResult) (db : List PushSub)
    (settings : Option ModerationMode) (dogName : Option String) (mediaId : String) :
    List DeliveryAttempt × List PushSub :=
  let adminSubscriptions := db.filter (fun s => s.receivesAdminNotifications)
  if adminSubscriptions.isEmpty then ([], db)
  else
    let moderationMode := settings.getD .aPosteriori
    let name := if strTruthy dogName then dogName.getD "" else "un chien"
    let msg : NotifMessage :=
      if moderationMode = .aPriori then
        { title := "🐕 Nouvelle photo à approuver",
          body := "Une photo de " ++ name ++ " attend votre approbation." }
      else
        { title := "🐕 Nouvelle photo ajoutée",
          body := "Une nouvelle photo de " ++ name ++ " a été ajoutée." }
    sendPushNotificationToSubscriptions outcome db adminSubscriptions
      { title := msg.title, body := msg.body, icon := "/images/hello-big-dog.png",
        badge := "/images/hello-dog.png",
        url := if moderationMode = .aPriori then "/media" else "/media/" ++ mediaId }

/-- The guard `context.session?.data?.isAdmin` used by
`sendNewDogNotification`: keystone.ts configures `sessionData: 'name email'`,
so the session data never carries `isAdmin` and the expression is always
undefined, hence falsy. -/
def sessionDataIsAdmin (_s : Option SessionData) : Bool := false

/-- `sendNewDogNotification(item, context)`: fired on every Dog create. Its
comment says it only notifies for non-admin creators, but the guard tests
`session?.data?.isAdmin`, a field absent from the configured session data, so
the early return never fires. -/
def sendNewDogNotification (outcome : PushSub → PushResult) (ctx : Ctx)
    (db : List PushSub) (dogName : String) (dogId : String) :
    List DeliveryAttempt × List PushSub :=
  if sessionDataIsAdmin ctx.session then ([], db)
  else
    let adminSubscriptions := db.filter (fun s => s.receivesAdminNotifications)
    if adminSubscriptions.isEmpty then ([], db)
    else
      sendPushNotificationToSubscriptions outcome db adminSubscriptions
        { title := "🐕 Nouveau chien ajouté", body := dogName ++ " a été ajouté",
          icon := "/images/hello-big-dog.png", badge := "/images/hello-dog.png",
          url := "/dogs/" ++ dogId }

/-- A Media row as relevant to the featured-photo and moderation logic. -/
structure MediaItem where
  id : Nat
  dog : Option Nat
  isFeatured : Bool
  status : RecordStatus
deriving DecidableEq

/-- The update path of `mediaHooks.resolveInput` when
`resolvedData.isFeatured === true`, composed with the triggering write: look
up the target's dog, unfeature every other featured photo of that dog, then
the normal update path persists `isFeatured: true` on the target. -/
def setFeatured (media : List MediaItem) (targetId : Nat) : List MediaItem :=
  match media.find? (fun m => m.id == targetId) with
  | none => media
  | some target =>
    let afterUnset : List MediaItem :=
      match target.dog with
      | some d =>
        media.map fun (m : MediaItem) =>
          if m.dog == some d && m.id != targetId && m.isFeatured then
            { m with isFeatured := false }
          else m
      | none => media
    afterUnset.map fun (m : MediaItem) =>
      if m.id == targetId then { m with isFeatured := true } else m

/-- A sequential (non-racing) sequence of featured-photo updates. -/
def applySetFeaturedCalls (media : List MediaItem) (calls : List Nat) : List MediaItem :=
  calls.foldl setFeatured media

/-- Number of featured attachments of subject `s`. -/
def featuredCount (s : Nat) (media : List MediaItem) : Nat :=
  media.countP fun m => m.dog == some s && m.isFeatured

/-- The client-visible create input for a Media item (the status field-level
access allows any client to supply `status` on create). -/
structure MediaCreateInput where
  dog : Option Nat
  isFeatured : Bool
  status : Option RecordStatus
deriving DecidableEq

/-- The create path of `mediaHooks.resolveInput`: reads
`settings?.moderationMode || 'a_posteriori'` and overwrites
`resolvedData.status` with `approved` in a_posteriori mode, `pending`
otherwise (the `uploadedAt` default is irrelevant to the claims). -/
def mediaResolveInputCreate (settings : Option ModerationMode)
    (input : MediaCreateInput) : MediaCreateInput :=
  let moderationMode := settings.getD .aPosteriori
  if moderationMode = .aPosteriori then { input with status := some .approved }
  else { input with status := some .pending }

/-- A Dog row as relevant to moderation-status assignment. -/
structure DogRecord where
  id : Nat
  status : RecordStatus
deriving DecidableEq

/-- The store state shared by the moderation-related operations: the
Settings singleton's mode (none = missing row or unset field) and the Media
and Dog tables. -/
structure PipelineState where
  settings : Option ModerationMode
  media : List MediaItem
  dogs : List DogRecord
deriving DecidableEq

/-- Creating a Media item: `resolveInput` resolves the status from the
moderation setting read at that instant, then the row is inserted. The
status select's DB default `pending` only applies when `resolveInput` left
the field unset, which never happens on create. -/
def createMedia (st : PipelineState) (newId : Nat) (input : MediaCreateInput) :
    PipelineState :=
  let resolved := mediaResolveInputCreate st.settings input
  { st with
    media := st.media ++
      [{ id := newId, dog := resolved.dog, isFeatured := resolved.isFeatured,
         status := resolved.status.getD .pending }] }

/-- Creating a Dog: `dogHooks.resolveInput` sets
`status = moderationMode === 'a_posteriori' ? 'approved' : 'pending'`. -/
def createDog (st : PipelineState) (newId : Nat) : PipelineState :=
  let moderationMode := st.settings.getD .aPosteriori
  let status : RecordStatus :=
    if moderationMode = .aPosteriori then .approved else .pending
  { st with dogs := st.dogs ++ [{ id := newId, status := status }] }

/-- Updating the Settings singleton's moderation mode: the Settings list has
no hooks, so the write touches only the Settings row. -/
def updateModerationMode (st : PipelineState) (m : Option ModerationMode) :
    PipelineState :=
  { st with settings := m }

/-- JS template interpolation of an item field
(`String(item[k])`, `undefined` when absent). -/
def jsStringOfField (item : List (String × JsonVal)) (k : String) : String :=
  match item.lookup k with
  | some v => jsCoerce v
  | none => "undefined"

/-- The owning dog's id from a Media item queried as `dog \x7b id name \x7d`. -/
def mediaDogId (item : List (String × JsonVal)) : Option String :=
  match item.lookup "dog" with
  | some (.jrel i _) => some i
  | _ => none

/-- The owning dog's name from a Media item queried as
`dog \x7b id name \x7d`. -/
def mediaDogName (item : List (String × JsonVal)) : Option String :=
  match item.lookup "dog" with
  | some (.jrel _ n) => n
  | _ => none

/-- The side-effect state threaded through an `afterOperation` hook: the
ChangeLog table, the delivery attempts made so far, and the PushSubscription
table. -/
structure HookEffects where
  log : List ChangeLogEntry
  attempts : List DeliveryAttempt
  pushDb : List PushSub
deriving DecidableEq

/-- `dogHooks.afterOperation`: creates and deletes always log (and notify);
updates log and notify only when `detectChanges` found at least one tracked
change. `item` and `oldItem` are the snapshots Keystone hands the hook
(`context._oldDogItem` for update/delete). The frontend build trigger has no
observable effect on the modelled state. -/
def dogAfterOperation (env : UrlEnv) (settings : Option ModerationMode)
    (outcome : PushSub → PushResult) (ctx : Ctx) (operation : Operation)
    (item oldItem : List (String × JsonVal)) (inputData : List (String × InputVal))
    (fx : HookEffects) : HookEffects :=
  match operation with
  | .create =>
    let entityName := getEntityName .Dog item
    let entry := logChange env settings ctx
      { entityType := .Dog, entityId := jsStringOfField item "id",
        entityName := entityName, operation := .create, changes := [],
        changesSummary := "Nouveau chien créé: " ++ entityName,
        status := none, dogId := none }
    let send := sendNewDogNotification outcome ctx fx.pushDb
      (jsStringOfField item "name") (jsStringOfField item "id")
    { log := fx.log ++ [entry], attempts := fx.attempts ++ send.1, pushDb := send.2 }
  | .update =>
    let changes := detectChanges .Dog oldItem inputData
    if changes.isEmpty then fx
    else
      let entityName := getEntityName .Dog item
      let changesSummary := createChangesSummary .Dog entityName changes
      let entry := logChange env settings ctx
        { entityType := .Dog, entityId := jsStringOfField item "id",
          entityName := entityName, operation := .update, changes := changes,
          changesSummary := changesSummary, status := none, dogId := none }
      let send := sendChangeNotification outcome ctx fx.pushDb
        { entityType := .Dog, entityName := entityName, operation := .update,
          changes := changes }
      { log := fx.log ++ [entry], attempts := fx.attempts ++ send.1, pushDb := send.2 }
  | .delete =>
    let entityName := getEntityName .Dog oldItem
    let entry := logChange env settings ctx
      { entityType := .Dog, entityId := jsStringOfField item "id",
        entityName := entityName, operation := .delete, changes := [],
        changesSummary := "Chien supprimé: " ++ entityName,
        status := none, dogId := none }
    let send := sendChangeNotification outcome ctx fx.pushDb
      { entityType := .Dog, entityName := entityName, operation := .delete,
        changes := [] }
    { log := fx.log ++ [entry], attempts := fx.attempts ++ send.1, pushDb := send.2 }

/-- `ownerHooks.afterOperation`: same shape as the dog hook, with the Owner
summaries and no upload notification. -/
def ownerAfterOperation (env : UrlEnv) (settings : Option ModerationMode)
    (outcome : PushSub → PushResult) (ctx : Ctx) (operation : Operation)
    (item oldItem : List (String × JsonVal)) (inputData : List (String × InputVal))
    (fx : HookEffects) : HookEffects :=
  match operation with
  | .create =>
    let entityName := getEntityName .Owner item
    let entry := logChange env settings ctx
      { entityType := .Owner, entityId := jsStringOfField item "id",
        entityName := entityName, operation := .create, changes := [],
        changesSummary := "Nouveau humain créé: " ++ entityName,
        status := none, dogId := none }
    let send := sendChangeNotification outcome ctx fx.pushDb
      { entityType := .Owner, entityName := entityName, operation := .create,
        changes := [] }
    { log := fx.log ++ [entry], attempts := fx.attempts ++ send.1, pushDb := send.2 }
  | .update =>
    let changes := detectChanges .Owner oldItem inputData
    if changes.isEmpty then fx
    else
      let entityName := getEntityName .Owner item
      let changesSummary := createChangesSummary .Owner entityName changes
      let entry := logChange env settings ctx
        { entityType := .Owner, entityId := jsStringOfField item "id",
          entityName := entityName, operation := .update, changes := changes,
          changesSummary := changesSummary, status := none, dogId := none }
      let send := sendChangeNotification outcome ctx fx.pushDb
        { entityType := .Owner, entityName := entityName, operation := .update,
          changes := changes }
      { log := fx.log ++ [entry], attempts := fx.attempts ++ send.1, pushDb := send.2 }
  | .delete =>
    let entityName := getEntityName .Owner oldItem
    let entry := logChange env settings ctx
      { entityType := .Owner, entityId := jsStringOfField item "id",
        entityName := entityName, operation := .delete, changes := [],
        changesSummary := "Humain supprimé: " ++ entityName,
        status := none, dogId := none }
    let send := sendChangeNotification outcome ctx fx.pushDb
      { entityType := .Owner, entityName := entityName, operation := .delete,
        changes := [] }
    { log := fx.log ++ [entry], attempts := fx.attempts ++ send.1, pushDb := send.2 }

/-- `mediaHooks.afterOperation`: creates always log and fire the upload
notification (no actor guard); updates log and, for non-admin actors, notify
only when a tracked change was detected; deletes always log and notify
non-admin actors. `item` is the full item re-queried as
`id name dog \x7b id name \x7d` (for delete, the stored `_oldMediaItem`). -/
def mediaAfterOperation (env : UrlEnv) (settings : Option ModerationMode)
    (outcome : PushSub → PushResult) (ctx : Ctx) (operation : Operation)
    (item oldItem : List (String × JsonVal)) (inputData : List (String × InputVal))
    (fx : HookEffects) : HookEffects :=
  match operation with
  | .create =>
    let entityName := getEntityName .Media item
    let entry := logChange env settings ctx
      { entityType := .Media, entityId := jsStringOfField item "id",
        entityName := entityName, operation := .create, changes := [],
        changesSummary := "Nouvelle photo uploadée: " ++ entityName,
        status := none, dogId := mediaDogId item }
    let send := sendUploadNotification outcome fx.pushDb settings
      (mediaDogName item) (jsStringOfField item "id")
    { log := fx.log ++ [entry], attempts := fx.attempts ++ send.1, pushDb := send.2 }
  | .update =>
    let changes := detectChanges .Media oldItem inputData
    if changes.isEmpty then fx
    else
      let entityName := getEntityName .Media item
      let changesSummary := createChangesSummary .Media entityName changes
      let entry := logChange env settings ctx
        { entityType := .Media, entityId := jsStringOfField item "id",
          entityName := entityName, operation := .update, changes := changes,
          changesSummary := changesSummary, status := none, dogId := mediaDogId item }
      let send :=
        if ctx.session.isNone then
          sendChangeNotification outcome ctx fx.pushDb
            { entityType := .Media, entityName := entityName, operation := .update,
              changes := changes }
        else ([], fx.pushDb)
      { log := fx.log ++ [entry], attempts := fx.attempts ++ send.1, pushDb := send.2 }
  | .delete =>
    let entityName := getEntityName .Media oldItem
    let entry := logChange env settings ctx
      { entityType := .Media, entityId := jsStringOfField item "id",
        entityName := entityName, operation := .delete, changes := [],
        changesSummary := "Photo supprimée: " ++ entityName,
        status := none, dogId := mediaDogId oldItem }
    let send :=
      if ctx.session.isNone then
        sendChangeNotification outcome ctx fx.pushDb
          { entityType := .Media, entityName := entityName, operation := .delete,
            changes := [] }
      else ([], fx.pushDb)
    { log := fx.log ++ [entry], attempts := fx.attempts ++ send.1, pushDb := send.2 }

/-! Theorems about the embedded pipeline, one per tracked claim of the
specification, with supporting lemmas. -/

/-- C5 (amended): for every entity kind and snapshot, `detectChanges` with no
proposed fields returns an empty change list, and `createChangesSummary` on
an empty change list returns the entity kind and display name joined as
`"kind: name"` (not the display name alone). -/
theorem c5_theorem (entityType : EntityType) (oldItem : List (String × JsonVal))
    (entityName : String) :
    detectChanges entityType oldItem [] = [] ∧
    createChangesSummary entityType entityName [] =
      entityTypeStr entityType ++ ": " ++ entityName := by
  constructor
  · simp [detectChanges, detectChangesField]
  · simp [createChangesSummary]

/-- C5 counterexample: `summarize` on an empty change list does not return
the display name alone — for a Dog named "Rex" it returns "Dog: Rex". -/
theorem c5_counterexample :
    createChangesSummary EntityType.Dog "Rex" [] ≠ "Rex" := by decide

/-- C3: a Media or Dog created while the effective moderation mode is
a_posteriori (auto-approve) is stored `approved`, and `pending` while it is
a_priori (require-review); updating the global mode afterwards leaves every
already-created Media and Dog row unchanged. -/
theorem c3_theorem (st : PipelineState) (idm idd : Nat) (input : MediaCreateInput)
    (m : Option ModerationMode) :
    ((createMedia st idm input).media.getLast? =
       some { id := idm, dog := input.dog, isFeatured := input.isFeatured,
              status :=
                match st.settings.getD .aPosteriori with
                | .aPosteriori => RecordStatus.approved
                | .aPriori => RecordStatus.pending }) ∧
    ((createDog st idd).dogs.getLast? =
       some { id := idd,
              status :=
                match st.settings.getD .aPosteriori with
                | .aPosteriori => RecordStatus.approved
                | .aPriori => RecordStatus.pending }) ∧
    (updateModerationMode st m).media = st.media ∧
    (updateModerationMode st m).dogs = st.dogs := by
  refine ⟨?_, ?_, rfl, rfl⟩
  · rcases st with ⟨settings, media, dogs⟩
    rcases settings with _ | mode
    · simp [createMedia, mediaResolveInputCreate]
    · cases mode <;> simp [createMedia, mediaResolveInputCreate]
  · rcases st with ⟨settings, media, dogs⟩
    rcases settings with _ | mode
    · simp [createDog]
    · cases mode <;> simp [createDog]

/-- C10: on Media create the stored status is independent of the
client-supplied status: two create requests identical except for the
supplied status yield identical states, and the resolved status is
determined solely by the moderation setting read at that moment (approved
when the mode is a_posteriori or the setting is missing, pending otherwise). -/
theorem c10_theorem (st : PipelineState) (newId : Nat) (input : MediaCreateInput)
    (s₁ s₂ : Option RecordStatus) :
    createMedia st newId { input with status := s₁ } =
      createMedia st newId { input with status := s₂ } ∧
    (mediaResolveInputCreate st.settings { input with status := s₁ }).status =
      some (match st.settings with
            | some .aPriori => RecordStatus.pending
            | _ => RecordStatus.approved) := by
  rcases st with ⟨settings, media, dogs⟩
  rcases settings with _ | mode
  · simp [createMedia, mediaResolveInputCreate]
  · cases mode <;> simp [createMedia, mediaResolveInputCreate]

/-- C9: creating an Attachment with `isFeatured = true` runs no
unset-all-others step (that step is gated on `operation === 'update'`), so
every existing Media row survives unchanged and a Subject that already had a
featured Attachment ends with at least two featured Attachments. -/
theorem c9_theorem (st : PipelineState) (newId s : Nat) (input : MediaCreateInput)
    (a : MediaItem) (ha : a ∈ st.media) (hdog : a.dog = some s)
    (hfeat : a.isFeatured = true) (hidog : input.dog = some s)
    (hifeat : input.isFeatured = true) :
    (∀ m ∈ st.media, m ∈ (createMedia st newId input).media) ∧
    2 ≤ featuredCount s (createMedia st newId input).media := by
  constructor
  · intro m hm
    simp only [createMedia, List.mem_append]
    exact Or.inl hm
  · have h1 : 0 < featuredCount s st.media := by
      rw [featuredCount, List.countP_pos_iff]
      exact ⟨a, ha, by simp [hdog, hfeat]⟩
    have h2 : featuredCount s (createMedia st newId input).media
        = featuredCount s st.media + 1 := by
      by_cases h : st.settings.getD .aPosteriori = .aPosteriori <;>
        simp [createMedia, mediaResolveInputCreate, featuredCount,
          List.countP_append, h, hidog, hifeat]
    omega

/-- C9 witness: a concrete subject 10 with featured photo 1; creating photo 2
with `isFeatured = true` leaves both featured. -/
theorem c9_witness :
    ((⟨1, some 10, true, .approved⟩ : MediaItem) ∈
      [(⟨1, some 10, true, .approved⟩ : MediaItem)]) ∧
    (∀ m ∈ [(⟨1, some 10, true, .approved⟩ : MediaItem)],
      m ∈ (createMedia ⟨none, [⟨1, some 10, true, .approved⟩], []⟩ 2
            ⟨some 10, true, none⟩).media) ∧
    2 ≤ featuredCount 10
        (createMedia ⟨none, [⟨1, some 10, true, .approved⟩], []⟩ 2
          ⟨some 10, true, none⟩).media := by
  refine ⟨by decide, ?_⟩
  have h := c9_theorem ⟨none, [⟨1, some 10, true, .approved⟩], []⟩ 2 10
    ⟨some 10, true, none⟩ ⟨1, some 10, true, .approved⟩
    (by decide) rfl rfl rfl rfl
  exact h

/-- Characterization of the active/expiry branch of `hasValidEditToken`. -/
theorem editToken_branch_iff (now : Nat) (e : EditToken) :
    (if !e.isActive then false
     else
       match e.expiresAt with
       | some expires => !(expires < now)
       | none => true) = true ↔
      e.isActive = true ∧
        (e.expiresAt = none ∨ ∃ x, e.expiresAt = some x ∧ now ≤ x) := by
  cases hia : e.isActive <;> rcases hea : e.expiresAt with _ | x <;>
    simp [hia, hea, Nat.not_lt]

/-- C1 (amended): for a request with no administrator session presenting a
nonempty token value, with token strings unique (the DB has a unique index
on `token`), admission is granted iff an EditToken record with that exact
token string exists, its active flag is true, and its expiry is unset or not
yet past (`now ≤ expiresAt` — the token still admits at the exact expiry
instant); otherwise the total Boolean result is a denial, never an
exception. -/
theorem c1_theorem (now : Nat) (tokens : List EditToken) (ctx : AuthRequestCtx)
    (t : String) (hs : ctx.session = none) (hc : ctx.cookieToken = some t)
    (ht : t ≠ "") (hnd : (tokens.map EditToken.token).Nodup) :
    hasValidEditToken now tokens ctx = true ↔
      ∃ e ∈ tokens, e.token = t ∧ e.isActive = true ∧
        (e.expiresAt = none ∨ ∃ x, e.expiresAt = some x ∧ now ≤ x) := by
  rcases ctx with ⟨sess, cook⟩
  simp only at hs hc
  subst hs
  subst hc
  rw [hasValidEditToken]
  simp only [Option.isSome_none, Bool.false_eq_true, if_false, if_neg ht]
  cases hfind : tokens.find? (fun e => e.token == t) with
  | none =>
    simp only [Bool.false_eq_true, false_iff]
    rintro ⟨e, he, het, -, -⟩
    rw [List.find?_eq_none] at hfind
    exact hfind e he (by simp [het])
  | some e =>
    have het : e.token = t := by
      have := List.find?_some hfind
      simpa using this
    have hmem := List.mem_of_find?_eq_some hfind
    rw [editToken_branch_iff]
    constructor
    · rintro ⟨hact, hexp⟩
      exact ⟨e, hmem, het, hact, hexp⟩
    · rintro ⟨e', he', het', hact', hexp'⟩
      have : e' = e :=
        List.inj_on_of_nodup_map hnd he' hmem (by rw [het', het])
      subst this
      exact ⟨hact', hexp'⟩

/-- A concrete EditToken used by the C1 witness and counterexample: active,
expiring at instant 100. -/
def c1Token : EditToken :=
  { id := "tk1", label := "Famille Dupont", token := "abc123",
    isActive := true, expiresAt := some 100, usageCount := 0 }

/-- C1 witness: at time 50 the amended equivalence holds for the concrete
token table. -/
theorem c1_witness :
    ((⟨none, some "abc123"⟩ : AuthRequestCtx).session = none) ∧
    (hasValidEditToken 50 [c1Token] ⟨none, some "abc123"⟩ = true ↔
      ∃ e ∈ [c1Token], e.token = "abc123" ∧ e.isActive = true ∧
        (e.expiresAt = none ∨ ∃ x, e.expiresAt = some x ∧ 50 ≤ x)) :=
  ⟨rfl, c1_theorem 50 [c1Token] ⟨none, some "abc123"⟩ "abc123" rfl rfl
    (by decide) (by decide)⟩

/-- C1 counterexample: at the exact expiry instant (`now = expiresAt = 100`)
the code grants admission although the expiry is not "in the future", so the
claim's if-and-only-if fails as stated. -/
theorem c1_counterexample :
    hasValidEditToken 100 [c1Token] ⟨none, some "abc123"⟩ = true ∧
    claimAdmitsFutureOnly 100 [c1Token] "abc123" = false := by decide

/-- C4 (amended): every admitted create or delete of a Dog, Owner, or Media
appends exactly one AuditEntry row, and an admitted update appends exactly
one when the tracked-field diff is nonempty and none at all otherwise (the
update branches are gated on `changes.length > 0`). -/
theorem c4_theorem (env : UrlEnv) (settings : Option ModerationMode)
    (outcome : PushSub → PushResult) (ctx : Ctx)
    (item oldItem : List (String × JsonVal)) (inputData : List (String × InputVal))
    (fx : HookEffects) :
    ((dogAfterOperation env settings outcome ctx .create item oldItem inputData
        fx).log.length = fx.log.length + 1) ∧
    ((dogAfterOperation env settings outcome ctx .delete item oldItem inputData
        fx).log.length = fx.log.length + 1) ∧
    ((dogAfterOperation env settings outcome ctx .update item oldItem inputData
        fx).log.length = fx.log.length +
          (if (detectChanges .Dog oldItem inputData).isEmpty then 0 else 1)) ∧
    ((ownerAfterOperation env settings outcome ctx .create item oldItem inputData
        fx).log.length = fx.log.length + 1) ∧
    ((ownerAfterOperation env settings outcome ctx .delete item oldItem inputData
        fx).log.length = fx.log.length + 1) ∧
    ((ownerAfterOperation env settings outcome ctx .update item oldItem inputData
        fx).log.length = fx.log.length +
          (if (detectChanges .Owner oldItem inputData).isEmpty then 0 else 1)) ∧
    ((mediaAfterOperation env settings outcome ctx .create item oldItem inputData
        fx).log.length = fx.log.length + 1) ∧
    ((mediaAfterOperation env settings outcome ctx .delete item oldItem inputData
        fx).log.length = fx.log.length + 1) ∧
    ((mediaAfterOperation env settings outcome ctx .update item oldItem inputData
        fx).log.length = fx.log.length +
          (if (detectChanges .Media oldItem inputData).isEmpty then 0 else 1)) := by
  refine ⟨by simp [dogAfterOperation], by simp [dogAfterOperation], ?_,
    by simp [ownerAfterOperation], by simp [ownerAfterOperation], ?_,
    by simp [mediaAfterOperation], by simp [mediaAfterOperation], ?_⟩
  · by_cases h : (detectChanges .Dog oldItem inputData).isEmpty <;>
      simp [dogAfterOperation, h]
  · by_cases h : (detectChanges .Owner oldItem inputData).isEmpty <;>
      simp [ownerAfterOperation, h]
  · by_cases h : (detectChanges .Media oldItem inputData).isEmpty <;>
      simp [mediaAfterOperation, h]

/-- C4 counterexample: a successful admitted Dog update whose proposed fields
produce no tracked-field change records zero AuditEntry rows, not one. -/
theorem c4_counterexample :
    ((dogAfterOperation defaultUrlEnv none (fun _ => .ok) ⟨none, none⟩ .update
        [("id", .jstr "d1"), ("name", .jstr "S1")]
        [("id", .jstr "d1"), ("name", .jstr "S1")] [] ⟨[], [], []⟩).log = []) ∧
    ((dogAfterOperation defaultUrlEnv none (fun _ => .ok) ⟨none, none⟩ .update
        [("id", .jstr "d1"), ("name", .jstr "S1")]
        [("id", .jstr "d1"), ("name", .jstr "S1")] [] ⟨[], [], []⟩).log.length ≠ 1) := by
  decide

/-- Old snapshot of Subject S1 for scenario C (queried as
`id name sex birthday breed coat owner \x7b id name \x7d`; untouched optional
fields omitted, i.e. undefined, on both sides of the diff). -/
def c6Old : List (String × JsonVal) :=
  [("id", .jstr "d1"), ("name", .jstr "S1"), ("coat", .jstr "black")]

/-- Update input of scenario C: the coat field set to "brindle". -/
def c6Input : List (String × InputVal) := [("coat", .plain (.jstr "brindle"))]

/-- Request context of scenario C: no admin session, magic token t2 labelled
"Family A". -/
def c6Ctx : Ctx := { session := none, magicToken := some { id := "t2", label := "Family A" } }

/-- C6: scenario C — a token-holder labelled "Family A" updating S1's coat
from "black" to "brindle" yields exactly one ChangeRecord
(field=coat, displayOld="black", displayNew="brindle") and persists the
AuditEntry summary "[Family A] S1: Robe: black → brindle"; in general every
token-attributed mutation with a nonempty actor label (EditToken labels are
nonempty by schema validation) has its summary prefixed with "[label] ". -/
theorem c6_theorem :
    (detectChanges .Dog c6Old c6Input =
      [{ field := "coat", fieldLabel := "Robe", oldValue := some (.jstr "black"),
         newValue := some (.jstr "brindle"), displayOld := "black",
         displayNew := "brindle" }]) ∧
    (∀ (env : UrlEnv) (settings : Option ModerationMode)
        (outcome : PushSub → PushResult) (fx : HookEffects),
      (dogAfterOperation env settings outcome c6Ctx .update c6Old c6Old c6Input
          fx).log.map ChangeLogEntry.changesSummary =
        fx.log.map ChangeLogEntry.changesSummary ++
          ["[Family A] S1: Robe: black → brindle"]) ∧
    (∀ (env : UrlEnv) (settings : Option ModerationMode) (ctx : Ctx)
        (tok : TokenInfo) (data : ChangeLogData),
      ctx.session = none → ctx.magicToken = some tok → tok.label ≠ "" →
      (logChange env settings ctx data).changesSummary =
        "[" ++ tok.label ++ "] " ++ data.changesSummary) := by
  have hch : detectChanges .Dog c6Old c6Input =
      [{ field := "coat", fieldLabel := "Robe", oldValue := some (.jstr "black"),
         newValue := some (.jstr "brindle"), displayOld := "black",
         displayNew := "brindle" }] := by decide
  refine ⟨hch, ?_, ?_⟩
  · intro env settings outcome fx
    simp only [dogAfterOperation, hch, List.isEmpty_cons, Bool.false_eq_true,
      if_false, List.map_append, List.map_cons, List.map_nil]
    rfl
  · intro env settings ctx tok data hs hm hl
    rcases ctx with ⟨sess, mtok⟩
    simp only at hs hm
    subst hs
    subst hm
    simp [logChange, getChangedBySource, getChangedByLabel, strTruthy, hl]

/-- Concrete audit data for the C6 witness. -/
def c6Data : ChangeLogData :=
  { entityType := .Dog, entityId := "d1", entityName := "S1", operation := .update,
    changes := [], changesSummary := "S1: Robe: black → brindle",
    status := none, dogId := none }

/-- C6 witness: the attribution-prefix law applied at the scenario's concrete
context and data. -/
theorem c6_witness :
    c6Ctx.session = none ∧
    c6Ctx.magicToken = some { id := "t2", label := "Family A" } ∧
    ("Family A" : String) ≠ "" ∧
    (logChange defaultUrlEnv none c6Ctx c6Data).changesSummary =
      "[" ++ ("Family A" : String) ++ "] " ++ c6Data.changesSummary :=
  ⟨rfl, rfl, by decide,
    c6_theorem.2.2 defaultUrlEnv none c6Ctx ⟨"t2", "Family A"⟩ c6Data rfl rfl
      (by decide)⟩

/-- C7 (amended): change notifications are never delivered for an
admin-session actor, every delivery attempt targets a subscription whose
admin-notification flag is true, and with no admin-flagged subscription the
dispatch is a no-op that leaves the subscription table untouched. (The
Attachment-create upload notification and the new-dog notification, by
contrast, fire regardless of an admin session — see the counterexample.) -/
theorem c7_theorem (outcome : PushSub → PushResult) (ctx : Ctx) (db : List PushSub)
    (cd : ChangeNotificationData) :
    (ctx.session.isSome = true → (sendChangeNotification outcome ctx db cd).1 = []) ∧
    ((sendChangeNotification outcome ctx db cd).1.all
       (fun a => a.sub.receivesAdminNotifications) = true) ∧
    ((db.filter (fun s => s.receivesAdminNotifications)).isEmpty = true →
      (sendChangeNotification outcome ctx db cd).1 = [] ∧
      (sendChangeNotification outcome ctx db cd).2 = db) := by
  refine ⟨?_, ?_, ?_⟩
  · intro h
    simp [sendChangeNotification, h]
  · by_cases hs : ctx.session.isSome
    · simp [sendChangeNotification, hs]
    · by_cases he : (db.filter (fun s => s.receivesAdminNotifications)).isEmpty
      · simp [sendChangeNotification, hs, he]
      · simp only [sendChangeNotification, hs, he, Bool.false_eq_true, if_false,
          sendPushNotificationToSubscriptions]
        rw [List.all_eq_true]
        intro a ha
        rw [List.mem_map] at ha
        obtain ⟨s, hsmem, rfl⟩ := ha
        exact (List.mem_filter.mp hsmem).2
  · intro h
    by_cases hs : ctx.session.isSome <;> simp [sendChangeNotification, hs, h]

/-- An admin-flagged push subscription used by the C7 material. -/
def c7AdminSub : PushSub :=
  { id := 1, endpoint := "https://push.example/ep1", keys := "k",
    receivesAdminNotifications := true }

/-- A request context holding an administrator session. -/
def c7AdminCtx : Ctx :=
  { session := some { name := "Admin", email := "admin@example.org" },
    magicToken := none }

/-- A freshly created Media item of dog Rex. -/
def c7Item : List (String × JsonVal) :=
  [("id", .jstr "m1"), ("name", .jstr "Photo"), ("dog", .jrel "d1" (some "Rex"))]

/-- C7 counterexample: a Media create performed under an administrator
session still delivers a push payload to the admin-flagged subscription —
`sendUploadNotification` has no actor guard — refuting "an admin-session
actor never produces a delivery even when the dispatcher is invoked". -/
theorem c7_counterexample :
    c7AdminCtx.session.isSome = true ∧
    (mediaAfterOperation defaultUrlEnv none (fun _ => .ok) c7AdminCtx .create
        c7Item c7Item [] ⟨[], [], [c7AdminSub]⟩).attempts ≠ [] := by decide

/-- C7 witness: an admin session yields no delivery attempts, and an empty
subscription table makes the dispatch a no-op — the amended theorem applied
at concrete inputs with its hypotheses discharged. -/
theorem c7_witness :
    ((sendChangeNotification (fun _ => .ok) c7AdminCtx [c7AdminSub]
        ⟨.Dog, "Rex", .update, []⟩).1 = []) ∧
    ((sendChangeNotification (fun _ => .ok) ⟨none, none⟩ []
        ⟨.Dog, "Rex", .update, []⟩).1 = [] ∧
     (sendChangeNotification (fun _ => .ok) ⟨none, none⟩ []
        ⟨.Dog, "Rex", .update, []⟩).2 = []) :=
  ⟨(c7_theorem (fun _ => .ok) c7AdminCtx [c7AdminSub]
      ⟨.Dog, "Rex", .update, []⟩).1 (by decide),
   (c7_theorem (fun _ => .ok) ⟨none, none⟩ []
      ⟨.Dog, "Rex", .update, []⟩).2.2 (by decide)⟩

/-- Net effect of the fan-out's per-subscription deletions: a subscription
row survives exactly when no attempted subscription with its id reported a
gone status. -/
theorem foldl_pruneStep_eq_filter (outcome : PushSub → PushResult)
    (subs : List PushSub) (db : List PushSub) :
    subs.foldl (pruneStep outcome) db =
      db.filter
        (fun s => !(subs.any (fun g => s.id == g.id && isGone (outcome g)))) := by
  induction subs generalizing db with
  | nil => simp
  | cons g rest ih =>
    rw [List.foldl_cons, ih]
    by_cases hg : isGone (outcome g) = true
    · rw [pruneStep, if_pos hg, List.filter_filter]
      apply List.filter_congr
      intro s _
      simp [hg, List.any_cons, Bool.not_or, Bool.and_comm, bne]
    · rw [pruneStep, if_neg hg]
      apply List.filter_congr
      intro s _
      simp only [List.any_cons, Bool.not_or]
      simp [Bool.eq_false_iff.mpr hg]

/-- C8: in every notification fan-out, each selected subscription is
attempted regardless of the other deliveries' outcomes; if no delivery
reports the gone status the subscription table is left intact; and if
exactly one attempted subscription reports 410 Gone then exactly the rows
with that subscription's id are deleted and no others. -/
theorem c8_theorem (outcome : PushSub → PushResult) (db subs : List PushSub)
    (payload : PushPayload) :
    ((sendPushNotificationToSubscriptions outcome db subs payload).1 =
       subs.map (fun s => { sub := s, payload := payload, result := outcome s })) ∧
    ((∀ h ∈ subs, isGone (outcome h) = false) →
      (sendPushNotificationToSubscriptions outcome db subs payload).2 = db) ∧
    (∀ g ∈ subs, isGone (outcome g) = true →
      (∀ h ∈ subs, h ≠ g → isGone (outcome h) = false) →
      (sendPushNotificationToSubscriptions outcome db subs payload).2 =
        db.filter (fun s => s.id != g.id)) := by
  refine ⟨rfl, ?_, ?_⟩
  · intro hno
    show subs.foldl (pruneStep outcome) db = db
    rw [foldl_pruneStep_eq_filter]
    have hany : ∀ s : PushSub,
        (subs.any (fun g => s.id == g.id && isGone (outcome g))) = false := by
      intro s
      rw [List.any_eq_false]
      intro g hgmem
      simp [hno g hgmem]
    simp [hany]
  · intro g hgmem hgone hothers
    show subs.foldl (pruneStep outcome) db = _
    rw [foldl_pruneStep_eq_filter]
    apply List.filter_congr
    intro s _
    have hany : (subs.any (fun h => s.id == h.id && isGone (outcome h)))
        = (s.id == g.id) := by
      cases hsg : (s.id == g.id) with
      | true =>
        rw [List.any_eq_true]
        exact ⟨g, hgmem, by simp [hsg, hgone]⟩
      | false =>
        rw [List.any_eq_false]
        intro h hmem
        by_cases hh : h = g
        · subst hh
          simp [hsg]
        · simp [hothers h hmem hh]
    rw [hany]
    rfl

/-- Subscriptions for the C8 witness: delivery succeeds to 1, reports
410 Gone for 2, and fails with 500 for 3. -/
def c8Sub1 : PushSub := ⟨1, "https://push.example/a", "k1", true⟩

/-- Second C8 witness subscription (the 410 one). -/
def c8Sub2 : PushSub := ⟨2, "https://push.example/b", "k2", true⟩

/-- Third C8 witness subscription (the 500 one). -/
def c8Sub3 : PushSub := ⟨3, "https://push.example/c", "k3", true⟩

/-- The delivery outcomes of the C8 witness fan-out. -/
def c8Outcome : PushSub → PushResult :=
  fun s => if s.id = 2 then .err 410 else if s.id = 3 then .err 500 else .ok

/-- Payload of the C8 witness fan-out. -/
def c8Payload : PushPayload := ⟨"t", "b", "/icon", "/badge", "/u"⟩

/-- C8 witness: all three subscriptions are attempted; a fan-out whose only
failure is a 500 deletes nothing; a fan-out containing the 410 deletes
exactly the 410 subscription. -/
theorem c8_witness :
    ((sendPushNotificationToSubscriptions c8Outcome [c8Sub1, c8Sub2, c8Sub3]
        [c8Sub1, c8Sub2, c8Sub3] c8Payload).1 =
      [c8Sub1, c8Sub2, c8Sub3].map
        (fun s => { sub := s, payload := c8Payload, result := c8Outcome s })) ∧
    ((sendPushNotificationToSubscriptions c8Outcome [c8Sub1, c8Sub2, c8Sub3]
        [c8Sub1, c8Sub3] c8Payload).2 = [c8Sub1, c8Sub2, c8Sub3]) ∧
    ((sendPushNotificationToSubscriptions c8Outcome [c8Sub1, c8Sub2, c8Sub3]
        [c8Sub1, c8Sub2, c8Sub3] c8Payload).2 =
      [c8Sub1, c8Sub2, c8Sub3].filter (fun s => s.id != c8Sub2.id)) :=
  ⟨(c8_theorem c8Outcome [c8Sub1, c8Sub2, c8Sub3] [c8Sub1, c8Sub2, c8Sub3]
      c8Payload).1,
   (c8_theorem c8Outcome [c8Sub1, c8Sub2, c8Sub3] [c8Sub1, c8Sub3]
      c8Payload).2.1 (by decide),
   (c8_theorem c8Outcome [c8Sub1, c8Sub2, c8Sub3] [c8Sub1, c8Sub2, c8Sub3]
      c8Payload).2.2 c8Sub2 (by decide) (by decide) (by decide)⟩

/-- The (id, dog) key of a media row; `setFeatured` only ever touches the
`isFeatured` flag, never this key. -/
def mediaKey (m : MediaItem) : Nat × Option Nat := (m.id, m.dog)

/-- Mapping a flag-only row transformation leaves the key list unchanged. -/
theorem map_key_of_flag_update (f : MediaItem → MediaItem)
    (hf : ∀ m, (f m).id = m.id ∧ (f m).dog = m.dog) (l : List MediaItem) :
    (l.map f).map mediaKey = l.map mediaKey := by
  rw [List.map_map]
  apply List.map_congr_left
  intro m _
  simp [mediaKey, Function.comp, (hf m).1, (hf m).2]

/-- One featured-photo update preserves every row's id and dog. -/
theorem setFeatured_map_key (media : List MediaItem) (t : Nat) :
    (setFeatured media t).map mediaKey = media.map mediaKey := by
  have hg : ∀ m : MediaItem,
      ((if m.id == t then { m with isFeatured := true } else m) : MediaItem).id = m.id ∧
      ((if m.id == t then { m with isFeatured := true } else m) : MediaItem).dog = m.dog := by
    intro m
    constructor <;> (dsimp only; split <;> rfl)
  rw [setFeatured]
  cases hf : media.find? (fun m => m.id == t) with
  | none => rfl
  | some target =>
    dsimp only
    cases htd : target.dog with
    | none =>
      exact map_key_of_flag_update _ hg media
    | some d =>
      have hfd : ∀ m : MediaItem,
          ((if m.dog == some d && m.id != t && m.isFeatured then
              { m with isFeatured := false } else m) : MediaItem).id = m.id ∧
          ((if m.dog == some d && m.id != t && m.isFeatured then
              { m with isFeatured := false } else m) : MediaItem).dog = m.dog := by
        intro m
        constructor <;> (dsimp only; split <;> rfl)
      exact (map_key_of_flag_update _ hg _).trans (map_key_of_flag_update _ hfd media)

/-- A whole sequence of featured-photo updates preserves ids and dogs. -/
theorem applyCalls_map_key (calls : List Nat) (st : List MediaItem) :
    (applySetFeaturedCalls st calls).map mediaKey = st.map mediaKey := by
  induction calls generalizing st with
  | nil => rfl
  | cons c rest ih =>
    rw [applySetFeaturedCalls, List.foldl_cons]
    exact (ih (setFeatured st c)).trans (setFeatured_map_key st c)

/-- Ids after a sequence of featured-photo updates. -/
theorem applyCalls_map_id (calls : List Nat) (st : List MediaItem) :
    (applySetFeaturedCalls st calls).map MediaItem.id = st.map MediaItem.id := by
  have h := congrArg (List.map Prod.fst) (applyCalls_map_key calls st)
  simpa [List.map_map, Function.comp_def, mediaKey] using h

/-- With unique ids, the lookup at the head of `setFeatured` finds exactly
the known row with the target id. -/
theorem find?_of_mem_nodup (st : List MediaItem) (t : Nat)
    (hnd : (st.map MediaItem.id).Nodup) (e : MediaItem) (he : e ∈ st)
    (het : e.id = t) : st.find? (fun m => m.id == t) = some e := by
  induction st with
  | nil => cases he
  | cons a l ih =>
    rw [List.map_cons, List.nodup_cons] at hnd
    rcases List.mem_cons.mp he with rfl | hel
    · rw [List.find?_cons_of_pos]
      simp [het]
    · have hat : ¬((a.id == t) = true) := by
        simp only [beq_iff_eq]
        intro hcontra
        exact hnd.1 (hcontra ▸ het ▸ List.mem_map_of_mem MediaItem.id hel)
      rw [List.find?_cons_of_neg (p := fun m : MediaItem => m.id == t) _ hat]
      exact ih hnd.2 hel

/-- Pointwise effect of one featured-photo update on the rows of the target's
subject: the target becomes featured, every other row of that subject
becomes (or stays) unfeatured, rows of other subjects keep their flag. -/
def setFeaturedElem (t s : Nat) (m : MediaItem) : MediaItem :=
  if m.id = t then { m with isFeatured := true }
  else if m.dog = some s then { m with isFeatured := false }
  else m

/-- When the target id belongs to a row of subject `s` and ids are unique,
`setFeatured` is exactly the pointwise map `setFeaturedElem`. -/
theorem setFeatured_eq_map (st : List MediaItem) (t s : Nat) (e : MediaItem)
    (hnd : (st.map MediaItem.id).Nodup) (he : e ∈ st) (het : e.id = t)
    (hed : e.dog = some s) :
    setFeatured st t = st.map (setFeaturedElem t s) := by
  rw [setFeatured, find?_of_mem_nodup st t hnd e he het]
  dsimp only
  rw [hed]
  rw [List.map_map]
  apply List.map_congr_left
  intro m _
  obtain ⟨mid, mdog, mfeat, mstat⟩ := m
  by_cases h1 : mid = t <;> by_cases h2 : mdog = some s <;> cases mfeat <;>
    simp [setFeaturedElem, h1, h2]

/-- With unique ids, a predicate that forces the target id holds for exactly
one row when it holds at the known target row. -/
theorem countP_eq_one_of_unique_id (st : List MediaItem) (t : Nat)
    (q : MediaItem → Bool) (hnd : (st.map MediaItem.id).Nodup) (e : MediaItem)
    (he : e ∈ st) (hq : q e = true) (hid : ∀ m, q m = true → m.id = t)
    (het : e.id = t) : st.countP q = 1 := by
  induction st with
  | nil => cases he
  | cons a l ih =>
    rw [List.map_cons, List.nodup_cons] at hnd
    rcases List.mem_cons.mp he with rfl | hel
    · rw [List.countP_cons_of_pos _ _ hq]
      have hzero : l.countP q = 0 := by
        rw [List.countP_eq_zero]
        intro m hm hqm
        apply hnd.1
        rw [het, ← hid m hqm]
        exact List.mem_map_of_mem MediaItem.id hm
      rw [hzero]
    · have hqa : ¬(q a = true) := by
        intro hqa
        apply hnd.1
        rw [hid a hqa, ← het]
        exact List.mem_map_of_mem MediaItem.id hel
      rw [List.countP_cons_of_neg _ _ hqa]
      exact ih hnd.2 hel

/-- After one featured-photo update targeting a row of subject `s`, the
subject's rows are featured exactly at the target id. -/
theorem setFeatured_featured_iff (st : List MediaItem) (t s : Nat) (e : MediaItem)
    (hnd : (st.map MediaItem.id).Nodup) (he : e ∈ st) (het : e.id = t)
    (hed : e.dog = some s) :
    ∀ m ∈ setFeatured st t, m.dog = some s → (m.isFeatured = true ↔ m.id = t) := by
  rw [setFeatured_eq_map st t s e hnd he het hed]
  intro m hm hmdog
  obtain ⟨x, hx, rfl⟩ := List.mem_map.mp hm
  obtain ⟨xid, xdog, xfeat, xstat⟩ := x
  by_cases h1 : xid = t <;> by_cases h2 : xdog = some s
  · simp [setFeaturedElem, h1]
  · simp [setFeaturedElem, h1, h2] at hmdog
  · simp [setFeaturedElem, h1, h2]
  · simp [setFeaturedElem, h1, h2] at hmdog

/-- After one featured-photo update targeting a row of subject `s`, that
subject has exactly one featured attachment. -/
theorem featuredCount_setFeatured (st : List MediaItem) (t s : Nat) (e : MediaItem)
    (hnd : (st.map MediaItem.id).Nodup) (he : e ∈ st) (het : e.id = t)
    (hed : e.dog = some s) : featuredCount s (setFeatured st t) = 1 := by
  rw [featuredCount, setFeatured_eq_map st t s e hnd he het hed, List.countP_map]
  have hpe : ∀ m ∈ st,
      (((fun m : MediaItem => m.dog == some s && m.isFeatured) ∘ setFeaturedElem t s) m
        ↔ (decide (m.id = t) && m.dog == some s) = true) := by
    intro m _
    obtain ⟨mid, mdog, mfeat, mstat⟩ := m
    by_cases h1 : mid = t <;> by_cases h2 : mdog = some s <;>
      simp [setFeaturedElem, h1, h2, Function.comp]
  rw [List.countP_congr hpe]
  exact countP_eq_one_of_unique_id st t _ hnd e he (by simp [het, hed])
    (fun m hm => by
      obtain ⟨hq1, -⟩ := Bool.and_eq_true_iff.mp hm
      exact of_decide_eq_true hq1) het

/-- C2 (amended): with unique Attachment ids, for any sequence of sequential
`setFeatured` calls each targeting an Attachment of Subject `s`, the empty
sequence leaves the store untouched (so a Subject whose attachments were
never featured keeps zero featured ones), and after any nonempty sequence
the Subject has exactly one featured Attachment, namely the target of the
last call — in particular with A1 featured and A2 not, a single
`setFeatured` on A2 ends with A1 unfeatured and A2 featured. -/
theorem c2_theorem (st : List MediaItem) (s : Nat) (calls : List Nat)
    (hnd : (st.map MediaItem.id).Nodup)
    (hcalls : ∀ t ∈ calls, ∃ e ∈ st, e.id = t ∧ e.dog = some s) :
    (calls = [] → applySetFeaturedCalls st calls = st) ∧
    (calls ≠ [] →
      featuredCount s (applySetFeaturedCalls st calls) = 1 ∧
      ∀ m ∈ applySetFeaturedCalls st calls, m.dog = some s →
        (m.isFeatured = true ↔ calls.getLast? = some m.id)) := by
  constructor
  · rintro rfl
    rfl
  · intro hne
    obtain ⟨init, lst, rfl⟩ := calls.eq_nil_or_concat.resolve_left hne
    simp only [List.concat_eq_append] at hcalls hne ⊢
    have happ : applySetFeaturedCalls st (init ++ [lst]) =
        setFeatured (applySetFeaturedCalls st init) lst := by
      rw [applySetFeaturedCalls, applySetFeaturedCalls, List.foldl_append,
        List.foldl_cons, List.foldl_nil]
    have hndmid : ((applySetFeaturedCalls st init).map MediaItem.id).Nodup := by
      rw [applyCalls_map_id init st]
      exact hnd
    obtain ⟨e, he, het, hed⟩ := hcalls lst (by simp)
    have hkeymem : mediaKey e ∈ (applySetFeaturedCalls st init).map mediaKey := by
      rw [applyCalls_map_key init st]
      exact List.mem_map_of_mem mediaKey he
    obtain ⟨e', he', hkeq⟩ := List.mem_map.mp hkeymem
    have he't : e'.id = lst := by
      have h := congrArg Prod.fst hkeq
      simpa [mediaKey, het] using h
    have he'd : e'.dog = some s := by
      have h := congrArg Prod.snd hkeq
      simpa [mediaKey, hed] using h
    have hlast : (init ++ [lst]).getLast? = some lst := by simp
    rw [happ]
    constructor
    · exact featuredCount_setFeatured _ lst s e' hndmid he' he't he'd
    · intro m hm hmdog
      rw [hlast, setFeatured_featured_iff _ lst s e' hndmid he' he't he'd m hm hmdog]
      constructor
      · intro h
        rw [h]
      · intro h
        exact (Option.some_inj.mp h).symm

/-- C2 counterexample: a Subject (id 10) with one never-featured Attachment
and an empty call sequence has at least one Attachment but zero featured
ones, refuting "exactly 1 if the Subject has at least one Attachment". -/
theorem c2_counterexample :
    (([⟨1, some 10, false, .pending⟩] : List MediaItem).countP
        (fun m => m.dog == some 10) ≠ 0) ∧
    featuredCount 10
        (applySetFeaturedCalls [⟨1, some 10, false, .pending⟩] []) ≠ 1 := by
  decide

/-- C2 witness: scenario D — A1 (id 1) featured and A2 (id 2) not, both of
Subject 10; one `setFeatured` call on A2 leaves exactly one featured
attachment, featured exactly at id 2 (so A1 is unfeatured, A2 featured). -/
theorem c2_witness :
    ((([⟨1, some 10, true, .approved⟩, ⟨2, some 10, false, .approved⟩] :
        List MediaItem).map MediaItem.id).Nodup) ∧
    (∀ t ∈ [2], ∃ e ∈ ([⟨1, some 10, true, .approved⟩,
        ⟨2, some 10, false, .approved⟩] : List MediaItem),
      e.id = t ∧ e.dog = some 10) ∧
    (featuredCount 10 (applySetFeaturedCalls
        [⟨1, some 10, true, .approved⟩, ⟨2, some 10, false, .approved⟩] [2]) = 1 ∧
      ∀ m ∈ applySetFeaturedCalls
          [⟨1, some 10, true, .approved⟩, ⟨2, some 10, false, .approved⟩] [2],
        m.dog = some 10 → (m.isFeatured = true ↔ [2].getLast? = some m.id)) :=
  ⟨by decide, by decide,
    (c2_theorem [⟨1, some 10, true, .approved⟩, ⟨2, some 10, false, .approved⟩]
      10 [2] (by decide) (by decide)).2 (by decide)⟩

end Dogbook
